import Mathlib

/-!
Verification of the fixed-width to delimited transcoding engine of the
`delimited_writer` package.  The embedding covers `encoding_properties.py`
(spec validation at construction time), and `delimited_writer.py`
(`DelimitedFileWriter.parse_fixed_width_file` and
`DelimitedFileWriter.generate_delimited_file`).

Text is modelled as `List Char` (Python `str` is a sequence of code points);
file reads/writes are modelled by passing the decoded character content in and
returning the produced character content out.  The spec-document load performed
by the constructor is modelled by passing the already-parsed document together
with an explicit trace of the file operations the constructor performs, in
source order.  Raised `ValueError`s are modelled as `Except.error` carrying the
exact message string.
-/

namespace DelimitedWriter

/-- Parsed content of the `spec.json` document, after `json.load` and after
`list(map(int, spec["Offsets"]))` has been applied to the offsets. -/
structure SpecDoc where
  ColumnNames : List String
  Offsets : List Int
  IncludeHeader : String
  FixedWidthEncoding : String
  DelimitedEncoding : String
deriving DecidableEq

/-- The configuration object built by `EncodingProperties.__init__`
(encoding_properties.py): the fields assigned on `self`. -/
structure EncodingProperties where
  spec_filename : String
  fixed_width_filename : String
  delimited_filename : String
  delimited_newline : Option String
  column_names : List String
  offsets : List Int
  fixed_width_encoding : String
  delimited_encoding : String
  include_header : Bool
deriving DecidableEq

/-- File operations that the constructor and the writer methods can perform. -/
inductive FileOp where
  | readSpecFile
  | openFixedWidthFile
  | openDelimitedFile
deriving DecidableEq

/-- Python `str()` applied to the `delimited_newline` argument, as interpolated
by the f-string `f"Illegal newline value: {delimited_newline}"`. -/
def pyStr : Option String → String
  | none => "None"
  | some s => s

/-- The terminator allow-list of encoding_properties.py line 34:
`{None, "", "\n", "\r\n", "\r"}`. -/
def legalNewlines : List (Option String) :=
  [none, some "", some "\n", some "\r\n", some "\r"]

/-- `EncodingProperties.__init__` (encoding_properties.py lines 11-65).
The first component of the result is the trace of file operations performed
before the constructor returns or raises, in source order: the spec file is
opened and parsed (lines 30-31) before the illegal-newline check (line 34).
The second component is either the raised `ValueError` message or the
constructed object. -/
def encodingPropertiesInit (spec_filename fixed_width_filename delimited_filename : String)
    (doc : SpecDoc) (delimited_newline : Option String) :
    List FileOp × Except String EncodingProperties :=
  -- lines 30-31: `with open(spec_filename, "r") as spec_file: spec = json.load(spec_file)`
  let trace := [FileOp.readSpecFile]
  -- line 34: `if delimited_newline not in {None, "", "\n", "\r\n", "\r"}`
  if delimited_newline ∉ legalNewlines then
    (trace, .error ("Illegal newline value: " ++ pyStr delimited_newline))
  else
  -- lines 38-41
  if doc.ColumnNames.length ≠ doc.Offsets.length then
    (trace, .error "The number of column names and offsets do not match")
  else
  -- lines 50-54
  if doc.FixedWidthEncoding ≠ "windows-1252" then
    (trace, .error (doc.FixedWidthEncoding ++
      " is either not a valid encoding, or it has not been implemented."))
  else
  -- lines 59-63
  if doc.DelimitedEncoding ≠ "utf-8" then
    (trace, .error (doc.DelimitedEncoding ++
      " is either not a valid encoding or it has not been implemented."))
  else
  (trace,
    .ok { spec_filename, fixed_width_filename, delimited_filename, delimited_newline,
          column_names := doc.ColumnNames,
          offsets := doc.Offsets,
          fixed_width_encoding := "cp1252",
          delimited_encoding := "UTF-8",
          include_header := doc.IncludeHeader == "True" })

/-! ## The fixed-width decoder -/

/-- Python universal-newline translation, applied because the fixed-width file
is opened with `newline=None`: each of `"\r\n"`, `"\r"`, `"\n"` terminating a
physical line is converted to `"\n"`. -/
def normalizeUniversal : List Char → List Char
  | [] => []
  | '\r' :: '\n' :: rest => '\n' :: normalizeUniversal rest
  | '\r' :: rest => '\n' :: normalizeUniversal rest
  | c :: rest => c :: normalizeUniversal rest

/-- Helper for `fileLines`: split after every `'\n'`, keeping the `'\n'` inside
the yielded line, as Python text-file iteration does. -/
def splitAfterNL : List Char → List Char → List (List Char)
  | [], acc => if acc = [] then [] else [acc.reverse]
  | c :: rest, acc =>
    if c = '\n' then (acc.reverse ++ ['\n']) :: splitAfterNL rest []
    else splitAfterNL rest (c :: acc)

/-- The sequence of lines produced by iterating a file opened with
`newline=None`: universal-newline translation followed by splitting after each
`'\n'` (the final line may lack a trailing newline). -/
def fileLines (content : List Char) : List (List Char) :=
  splitAfterNL (normalizeUniversal content) []

/-- Python's index clamping for a slice bound on a sequence of length `n`. -/
def pyIndex (n : Nat) (i : Int) : Nat :=
  if i < 0 then (max 0 ((n : Int) + i)).toNat else min i.toNat n

/-- Python slice `s[a:b]`. -/
def pySlice (cs : List Char) (a b : Int) : List Char :=
  (cs.take (pyIndex cs.length b)).drop (pyIndex cs.length a)

/-- One element of the list comprehension in `parse_fixed_width_file`:
`line[sum(offsets[0:i]) : sum(offsets[0:i]) + offset].replace(" ", "")`. -/
def sliceField (offsets : List Int) (line : List Char) (i : Nat) (offset : Int) :
    List Char :=
  (pySlice line ((offsets.take i).sum) ((offsets.take i).sum + offset)).filter (· != ' ')

/-- The whole list comprehension `[... for i, offset in enumerate(offsets)]`. -/
def lineFields (offsets : List Int) (line : List Char) : List (List Char) :=
  offsets.enum.map (fun p => sliceField offsets line p.1 p.2)

/-- One iteration of the loop in `parse_fixed_width_file`
(delimited_writer.py lines 53-64): strip the newline, check the width,
slice out the fields. -/
def parseLine (offsets : List Int) (rawLine : List Char) :
    Except String (List (List Char)) :=
  if (((rawLine.filter (· != '\n')).length : Int)) ≠ offsets.sum then
    .error "One or more fields are of incorrect length"
  else
    .ok (lineFields offsets (rawLine.filter (· != '\n')))

/-- The loop of `parse_fixed_width_file` over the logical lines; the `raise`
aborts the whole call, which `Except`'s fail-fast `mapM` models. -/
def parseLines (offsets : List Int) (lines : List (List Char)) :
    Except String (List (List (List Char))) :=
  lines.mapM (parseLine offsets)

/-- `DelimitedFileWriter.parse_fixed_width_file` (delimited_writer.py
lines 39-65), with the input file's decoded character content passed in.
The method assigns no attribute of `self.encoding_props`, so the state-passing
embedding returns the configuration as it was received. -/
def parse_fixed_width_file (props : EncodingProperties) (content : List Char) :
    Except String (List (List (List Char))) × EncodingProperties :=
  (parseLines props.offsets (fileLines content), props)

/-! ## The delimited (CSV) encoder -/

/-- Whether `csv.writer` (default QUOTE_MINIMAL dialect with delimiter `,`,
quotechar `"`) must quote a field: it contains the delimiter, the quote
character, or a character of the line terminator. -/
def csvNeedsQuote (lineterminator : List Char) (f : List Char) : Bool :=
  f.any (fun c => c == ',' || c == '"' || lineterminator.contains c)

/-- Default `doublequote=True` escaping: each `"` becomes `""`. -/
def csvEscape (f : List Char) : List Char :=
  (f.map (fun c => if c = '"' then [c, c] else [c])).flatten

/-- Render one field; `singleEmpty` is true when the field is the only field of
its row, in which case an empty field is quoted (CPython `_csv` behaviour). -/
def csvField (lineterminator : List Char) (singleEmpty : Bool) (f : List Char) :
    List Char :=
  if csvNeedsQuote lineterminator f || (singleEmpty && f.isEmpty) then
    '"' :: (csvEscape f ++ ['"'])
  else f

/-- `csv.writer(f, delimiter=",", lineterminator=...).writerow(fields)`:
the delimiter-joined rendered fields followed by exactly the terminator. -/
def writerow (lineterminator : List Char) (fields : List (List Char)) : List Char :=
  List.intercalate [',']
    (fields.map (csvField lineterminator (fields.length == 1))) ++ lineterminator

/-- The newline resolution of `generate_delimited_file` (delimited_writer.py
lines 87-94): the `if delimited_newline in {None, ""}: ... = os.linesep` /
`elif ... : pass` chain, performed at encode time on a local variable. -/
def resolveNewline (delimited_newline : Option String) (osLinesep : String) : String :=
  match delimited_newline with
  | none => osLinesep
  | some "" => osLinesep
  | some s => s

/-- `DelimitedFileWriter.generate_delimited_file` (delimited_writer.py
lines 67-103).  The output file is opened with `newline=""`, so no newline
translation occurs and the produced content is exactly the characters written
by `csv.writer`.  `osLinesep` is the host platform's `os.linesep`.  The method
assigns no attribute of `self.encoding_props`, so the state-passing embedding
returns the configuration as it was received. -/
def generate_delimited_file (props : EncodingProperties) (osLinesep : String)
    (delimited_data : List (List (List Char))) : List Char × EncodingProperties :=
  let term := (resolveNewline props.delimited_newline osLinesep).toList
  let headerPart :=
    if props.include_header then
      writerow term (props.column_names.map String.toList)
    else []
  (headerPart ++ (delimited_data.map (writerow term)).flatten, props)

/-! ## Concrete documents and configurations used by witnesses -/

/-- A well-formed spec document with columns `[("A",3),("B",2)]`. -/
def docAB : SpecDoc :=
  { ColumnNames := ["A", "B"], Offsets := [3, 2], IncludeHeader := "True",
    FixedWidthEncoding := "windows-1252", DelimitedEncoding := "utf-8" }

/-- The configuration `encodingPropertiesInit` builds from `docAB` with
terminator `"\n"`. -/
def propsAB : EncodingProperties :=
  { spec_filename := "spec.json", fixed_width_filename := "fixed_width_cp1252.txt",
    delimited_filename := "delimited_utf8.txt", delimited_newline := some "\n",
    column_names := ["A", "B"], offsets := [3, 2],
    fixed_width_encoding := "cp1252", delimited_encoding := "UTF-8",
    include_header := true }

/-- A spec document with empty `ColumnNames` and `Offsets`. -/
def docEmpty : SpecDoc :=
  { ColumnNames := [], Offsets := [], IncludeHeader := "True",
    FixedWidthEncoding := "windows-1252", DelimitedEncoding := "utf-8" }

/-- A spec document with a negative offset. -/
def docNeg : SpecDoc :=
  { ColumnNames := ["A"], Offsets := [-1], IncludeHeader := "True",
    FixedWidthEncoding := "windows-1252", DelimitedEncoding := "utf-8" }

/-- A spec document with the unsupported fixed-width encoding `latin-1`. -/
def docLatin1 : SpecDoc :=
  { ColumnNames := ["A"], Offsets := [1], IncludeHeader := "True",
    FixedWidthEncoding := "latin-1", DelimitedEncoding := "utf-8" }

/-! ## Constructor lemmas -/

instance {ε α : Type} [DecidableEq ε] [DecidableEq α] : DecidableEq (Except ε α) := fun a b =>
  match a, b with
  | .error e, .error e' => decidable_of_iff (e = e') (by simp)
  | .error _, .ok _ => isFalse (by simp)
  | .ok _, .error _ => isFalse (by simp)
  | .ok x, .ok y => decidable_of_iff (x = y) (by simp)

/-- In the success case the constructor returns exactly the object assembled
from the document: normalized encodings, the terminator stored unresolved. -/
theorem encodingPropertiesInit_ok {sf fwf df : String} {doc : SpecDoc}
    {dn : Option String} {p : EncodingProperties}
    (h : (encodingPropertiesInit sf fwf df doc dn).2 = .ok p) :
    p = { spec_filename := sf, fixed_width_filename := fwf, delimited_filename := df,
          delimited_newline := dn, column_names := doc.ColumnNames,
          offsets := doc.Offsets, fixed_width_encoding := "cp1252",
          delimited_encoding := "UTF-8",
          include_header := doc.IncludeHeader == "True" } := by
  unfold encodingPropertiesInit at h
  split_ifs at h with h1 h2 h3 h4
  all_goals simp_all

/-- The only file operation the constructor ever performs is reading the spec
document; it happens unconditionally, before any check. -/
theorem encodingPropertiesInit_trace (sf fwf df : String) (doc : SpecDoc)
    (dn : Option String) :
    (encodingPropertiesInit sf fwf df doc dn).1 = [FileOp.readSpecFile] := by
  unfold encodingPropertiesInit
  split_ifs
  all_goals rfl

/-- C10: for every spec that passes validation, the constructed configuration
stores the normalized encoding names: the source-encoding field equals
`"cp1252"` (not `"windows-1252"`) and the target-encoding field equals
`"UTF-8"` (not `"utf-8"`). -/
theorem stored_encodings_normalized (sf fwf df : String) (doc : SpecDoc)
    (dn : Option String) (p : EncodingProperties)
    (h : (encodingPropertiesInit sf fwf df doc dn).2 = .ok p) :
    p.fixed_width_encoding = "cp1252" ∧ p.delimited_encoding = "UTF-8" := by
  rw [encodingPropertiesInit_ok h]
  exact ⟨rfl, rfl⟩

/-- Witness for C10 at a concrete successful construction. -/
theorem stored_encodings_normalized_witness :
    propsAB.fixed_width_encoding = "cp1252" ∧ propsAB.delimited_encoding = "UTF-8" :=
  stored_encodings_normalized "spec.json" "fixed_width_cp1252.txt"
    "delimited_utf8.txt" docAB (some "\n") propsAB (by decide)

/-- C2 counterexample: constructing with terminator `"\t"` does fail with the
illegal-newline error naming the value, but at that point the spec document has
already been opened and read — the constructor performs file I/O before the
terminator check, contrary to the claim. -/
theorem terminator_check_preceded_by_spec_read :
    (encodingPropertiesInit "spec.json" "in.txt" "out.csv" docAB (some "\t")).2
      = .error "Illegal newline value: \t" ∧
    FileOp.readSpecFile ∈
      (encodingPropertiesInit "spec.json" "in.txt" "out.csv" docAB (some "\t")).1 := by
  decide

/-- C2 amended: every configuration whose output terminator is not one of
{None, "", "\n", "\r", "\r\n"} fails at construction with the illegal-newline
`ValueError` naming the value; at that point only the spec document has been
read — neither the fixed-width input nor the delimited output file is ever
opened by the constructor. -/
theorem illegal_terminator_fails (sf fwf df : String) (doc : SpecDoc)
    (dn : Option String) (h : dn ∉ legalNewlines) :
    (encodingPropertiesInit sf fwf df doc dn).2 =
      .error ("Illegal newline value: " ++ pyStr dn) ∧
    (encodingPropertiesInit sf fwf df doc dn).1 = [FileOp.readSpecFile] := by
  unfold encodingPropertiesInit
  rw [if_pos h]
  exact ⟨rfl, rfl⟩

/-- Witness for the amended C2 at terminator `"\t"`. -/
theorem illegal_terminator_fails_witness :
    (encodingPropertiesInit "spec.json" "in.txt" "out.csv" docAB (some "\t")).2 =
      .error ("Illegal newline value: " ++ pyStr (some "\t")) ∧
    (encodingPropertiesInit "spec.json" "in.txt" "out.csv" docAB (some "\t")).1 =
      [FileOp.readSpecFile] :=
  illegal_terminator_fails "spec.json" "in.txt" "out.csv" docAB (some "\t") (by decide)

/-- C6 counterexample: a spec with empty `ColumnNames`/`Offsets`, and one with a
negative width, are both accepted — construction succeeds, so neither
non-emptiness nor positivity of widths is validated. -/
theorem empty_and_negative_widths_accepted :
    (encodingPropertiesInit "s.json" "i.txt" "o.csv" docEmpty none).2 =
      .ok { spec_filename := "s.json", fixed_width_filename := "i.txt",
            delimited_filename := "o.csv", delimited_newline := none,
            column_names := [], offsets := [],
            fixed_width_encoding := "cp1252", delimited_encoding := "UTF-8",
            include_header := true } ∧
    (encodingPropertiesInit "s.json" "i.txt" "o.csv" docNeg none).2 =
      .ok { spec_filename := "s.json", fixed_width_filename := "i.txt",
            delimited_filename := "o.csv", delimited_newline := none,
            column_names := ["A"], offsets := [-1],
            fixed_width_encoding := "cp1252", delimited_encoding := "UTF-8",
            include_header := true } := by
  decide

/-- C6 amended: validation requires only that the column-name and width arrays
have equal length, failing with the mismatch `ValueError` when they differ; it
does not require non-emptiness or positive widths — any document with
equal-length arrays, the supported encodings and a legal terminator is
accepted, including empty arrays and zero or negative widths. -/
theorem spec_length_validation (sf fwf df : String) (doc : SpecDoc)
    (dn : Option String) (hdn : dn ∈ legalNewlines) :
    (doc.ColumnNames.length ≠ doc.Offsets.length →
      (encodingPropertiesInit sf fwf df doc dn).2 =
        .error "The number of column names and offsets do not match") ∧
    (doc.ColumnNames.length = doc.Offsets.length →
      doc.FixedWidthEncoding = "windows-1252" →
      doc.DelimitedEncoding = "utf-8" →
      (encodingPropertiesInit sf fwf df doc dn).2 =
        .ok { spec_filename := sf, fixed_width_filename := fwf,
              delimited_filename := df, delimited_newline := dn,
              column_names := doc.ColumnNames, offsets := doc.Offsets,
              fixed_width_encoding := "cp1252", delimited_encoding := "UTF-8",
              include_header := doc.IncludeHeader == "True" }) := by
  constructor
  · intro hne
    unfold encodingPropertiesInit
    rw [if_neg (by simpa using hdn), if_pos hne]
  · intro heq henc1 henc2
    unfold encodingPropertiesInit
    rw [if_neg (by simpa using hdn), if_neg (by simpa using heq),
      if_neg (by simpa using henc1), if_neg (by simpa using henc2)]

/-- Witness for the amended C6: the empty-arrays document is accepted, and a
mismatched document is rejected with the mismatch error. -/
theorem spec_length_validation_witness :
    (encodingPropertiesInit "s.json" "i.txt" "o.csv" docEmpty none).2 =
      .ok { spec_filename := "s.json", fixed_width_filename := "i.txt",
            delimited_filename := "o.csv", delimited_newline := none,
            column_names := docEmpty.ColumnNames, offsets := docEmpty.Offsets,
            fixed_width_encoding := "cp1252", delimited_encoding := "UTF-8",
            include_header := docEmpty.IncludeHeader == "True" } :=
  (spec_length_validation "s.json" "i.txt" "o.csv" docEmpty none (by decide)).2
    rfl rfl rfl

/-- C8 counterexample: two different malformed lines produce the identical,
generic width error message — the `RecordWidthError` raised by the decoder does
not identify the offending line. -/
theorem width_error_is_generic :
    parseLine [3, 2] "abcdef".toList =
      .error "One or more fields are of incorrect length" ∧
    parseLine [3, 2] "xy".toList =
      .error "One or more fields are of incorrect length" := by
  decide

/-- C8 amended: the unsupported-encoding errors name the offending encoding
value, but the width-mismatch error raised by the decoder is one fixed generic
message, the same for every offending line, which does not identify the line. -/
theorem error_diagnostics (sf fwf df : String) (doc : SpecDoc)
    (dn : Option String) (offsets : List Int) (rawLine : List Char) (e : String) :
    (parseLine offsets rawLine = .error e →
      e = "One or more fields are of incorrect length") ∧
    (dn ∈ legalNewlines → doc.ColumnNames.length = doc.Offsets.length →
      doc.FixedWidthEncoding ≠ "windows-1252" →
      (encodingPropertiesInit sf fwf df doc dn).2 =
        .error (doc.FixedWidthEncoding ++
          " is either not a valid encoding, or it has not been implemented.")) ∧
    (dn ∈ legalNewlines → doc.ColumnNames.length = doc.Offsets.length →
      doc.FixedWidthEncoding = "windows-1252" → doc.DelimitedEncoding ≠ "utf-8" →
      (encodingPropertiesInit sf fwf df doc dn).2 =
        .error (doc.DelimitedEncoding ++
          " is either not a valid encoding or it has not been implemented.")) := by
  refine ⟨?_, ?_, ?_⟩
  · intro h
    unfold parseLine at h
    split at h
    · exact (Except.error.inj h).symm
    · exact absurd h (by simp)

  · intro hdn heq henc
    unfold encodingPropertiesInit
    rw [if_neg (by simpa using hdn), if_neg (by simpa using heq), if_pos henc]
  · intro hdn heq henc1 henc2
    unfold encodingPropertiesInit
    rw [if_neg (by simpa using hdn), if_neg (by simpa using heq),
      if_neg (by simpa using henc1), if_pos henc2]

/-- Witness for the amended C8: the unsupported-encoding rejection of
`latin-1` names the value. -/
theorem error_diagnostics_witness :
    (encodingPropertiesInit "s.json" "i.txt" "o.csv" docLatin1 none).2 =
      .error (docLatin1.FixedWidthEncoding ++
        " is either not a valid encoding, or it has not been implemented.") :=
  (error_diagnostics "s.json" "i.txt" "o.csv" docLatin1 none [1] ['a'] "").2.1
    (by decide) rfl (by decide)

/-- C9: running decode and then encode leaves every field of the configuration
object unchanged — column names, widths, encodings, header flag, and the stored
output terminator (resolving an unset terminator to the platform default is
done on a local at encode time and never written back) — so the same
configuration can be reused read-only across sequential runs. -/
theorem config_reusable (props : EncodingProperties) (content : List Char)
    (osLinesep : String) (data : List (List (List Char))) :
    (parse_fixed_width_file props content).2 = props ∧
    (generate_delimited_file (parse_fixed_width_file props content).2
        osLinesep data).2 = props ∧
    (generate_delimited_file (parse_fixed_width_file props content).2
        osLinesep data).2.column_names = props.column_names ∧
    (generate_delimited_file (parse_fixed_width_file props content).2
        osLinesep data).2.offsets = props.offsets ∧
    (generate_delimited_file (parse_fixed_width_file props content).2
        osLinesep data).2.fixed_width_encoding = props.fixed_width_encoding ∧
    (generate_delimited_file (parse_fixed_width_file props content).2
        osLinesep data).2.delimited_encoding = props.delimited_encoding ∧
    (generate_delimited_file (parse_fixed_width_file props content).2
        osLinesep data).2.include_header = props.include_header ∧
    (generate_delimited_file (parse_fixed_width_file props content).2
        osLinesep data).2.delimited_newline = props.delimited_newline :=
  ⟨rfl, rfl, rfl, rfl, rfl, rfl, rfl, rfl⟩

/-! ## Fail-fast decoding (C3) -/

theorem exceptBind_ok {α β : Type} (a : α) (f : α → Except String β) :
    (Except.ok a >>= f) = f a := rfl

theorem exceptBind_error {α β : Type} (e : String) (f : α → Except String β) :
    ((Except.error e : Except String α) >>= f) = .error e := rfl

theorem parseLine_error_of_badWidth {offsets : List Int} {l : List Char}
    (h : ((l.filter (· != '\n')).length : Int) ≠ offsets.sum) :
    parseLine offsets l = .error "One or more fields are of incorrect length" := by
  unfold parseLine
  rw [if_pos h]

theorem parseLine_ok_of_goodWidth {offsets : List Int} {l : List Char}
    (h : ((l.filter (· != '\n')).length : Int) = offsets.sum) :
    parseLine offsets l = .ok (lineFields offsets (l.filter (· != '\n'))) := by
  unfold parseLine
  rw [if_neg (not_not_intro h)]

/-- C3: a logical line whose length (after newline stripping) differs from
`sum(offsets)` makes the decode fail with the width error: no records are
returned for any line, and the lines after the first malformed one are never
examined — the result does not depend on them. -/
theorem malformed_line_aborts (offsets : List Int) (good : List (List Char))
    (bad : List Char) (rest rest' : List (List Char))
    (hgood : ∀ l ∈ good, ((l.filter (· != '\n')).length : Int) = offsets.sum)
    (hbad : ((bad.filter (· != '\n')).length : Int) ≠ offsets.sum) :
    parseLines offsets (good ++ bad :: rest) =
      .error "One or more fields are of incorrect length" ∧
    parseLines offsets (good ++ bad :: rest) =
      parseLines offsets (good ++ bad :: rest') := by
  have herr : ∀ (rest0 : List (List Char)) (g0 : List (List Char)),
      (∀ l ∈ g0, ((l.filter (· != '\n')).length : Int) = offsets.sum) →
      parseLines offsets (g0 ++ bad :: rest0) =
        .error "One or more fields are of incorrect length" := by
    intro rest0 g0 hg0
    induction g0 with
    | nil =>
      simp only [List.nil_append, parseLines, List.mapM_cons]
      rw [parseLine_error_of_badWidth hbad, exceptBind_error]
    | cons g gs ih =>
      simp only [List.cons_append, parseLines, List.mapM_cons]
      rw [parseLine_ok_of_goodWidth (hg0 g (List.mem_cons_self g gs)), exceptBind_ok]
      have htail := ih (fun l hl => hg0 l (List.mem_cons_of_mem g hl))
      simp only [parseLines] at htail
      rw [htail, exceptBind_error]
  exact ⟨herr rest good hgood,
    (herr rest good hgood).trans (herr rest' good hgood).symm⟩

/-- Witness for C3: with widths `[1]`, a well-formed line `"a"`, the malformed
line `"bc"`, and differing tails. -/
theorem malformed_line_aborts_witness :
    parseLines [1] ([['a']] ++ ['b', 'c'] :: [['d']]) =
      .error "One or more fields are of incorrect length" ∧
    parseLines [1] ([['a']] ++ ['b', 'c'] :: [['d']]) =
      parseLines [1] ([['a']] ++ ['b', 'c'] :: []) :=
  malformed_line_aborts [1] [['a']] ['b', 'c'] [['d']] []
    (by decide) (by decide)

/-! ## Slicing lemmas (C4, C5) -/

theorem pyIndex_nonneg {i : Int} (h : 0 ≤ i) (n : Nat) :
    pyIndex n i = min i.toNat n := by
  unfold pyIndex
  rw [if_neg (by omega)]

theorem pySlice_nonneg (cs : List Char) {a b : Int} (ha : 0 ≤ a) (hb : 0 ≤ b) :
    pySlice cs a b = (cs.take b.toNat).drop a.toNat := by
  unfold pySlice
  rw [pyIndex_nonneg ha, pyIndex_nonneg hb,
    List.take_eq_take.mpr (show min (min b.toNat cs.length) cs.length =
      min b.toNat cs.length by omega)]
  by_cases hc : a.toNat ≤ cs.length
  · rw [Nat.min_eq_left hc]
  · rw [Nat.min_eq_right (by omega),
      List.drop_eq_nil_iff.mpr (by rw [List.length_take]; omega),
      List.drop_eq_nil_iff.mpr (by rw [List.length_take]; omega)]

theorem pySlice_shift (cs : List Char) {d a b : Int} (hd : 0 ≤ d) (ha : 0 ≤ a)
    (hb : 0 ≤ b) :
    pySlice cs (d + a) (d + b) = pySlice (cs.drop d.toNat) a b := by
  rw [pySlice_nonneg cs (by omega) (by omega), pySlice_nonneg _ ha hb,
    Int.toNat_add hd ha, Int.toNat_add hd hb, List.take_drop, List.drop_drop]

theorem take_sum_nonneg {ws : List Int} (h : ∀ x ∈ ws, 0 ≤ x) (i : Nat) :
    0 ≤ (ws.take i).sum :=
  List.sum_nonneg (fun x hx => h x (List.mem_of_mem_take hx))

/-- Peeling one column off the slicing comprehension: with non-negative
offsets, the head field is the space-stripped prefix of width `w`, and the
remaining fields are the same comprehension over the rest of the line. -/
theorem lineFields_cons (w : Int) (ws : List Int) (line : List Char)
    (hw : 0 ≤ w) (hws : ∀ x ∈ ws, 0 ≤ x) :
    lineFields (w :: ws) line =
      (line.take w.toNat).filter (· != ' ') :: lineFields ws (line.drop w.toNat) := by
  unfold lineFields
  rw [List.enum_cons', List.map_cons, List.map_map]
  congr 1
  · unfold sliceField
    simp only [List.take_zero, List.sum_nil, zero_add]
    rw [pySlice_nonneg line le_rfl hw, Int.toNat_zero, List.drop_zero]
  · apply List.map_congr_left
    intro p hp
    obtain ⟨i, x⟩ := p
    have hx : x ∈ ws := List.getElem?_mem (List.mem_enum_iff_getElem?.mp hp)
    simp only [Function.comp_apply, Prod.map_apply, id_eq]
    unfold sliceField
    simp only [List.take_succ_cons, List.sum_cons]
    rw [add_assoc, pySlice_shift line hw (take_sum_nonneg hws i)
      (add_nonneg (take_sum_nonneg hws i) (hws x hx))]

/-- Specification-level slicer: the fields cut at cumulative offsets, expressed
by walking down the line. -/
def sliceFieldsNat : List Nat → List Char → List (List Char)
  | [], _ => []
  | w :: ws, cs => (cs.take w).filter (· != ' ') :: sliceFieldsNat ws (cs.drop w)

theorem offsets_sum_natCast (widths : List Nat) :
    (widths.map Int.ofNat).sum = Int.ofNat widths.sum := by
  induction widths with
  | nil => rfl
  | cons w ws ih => simp [ih, Int.ofNat_add_ofNat]

theorem lineFields_natCast (widths : List Nat) (line : List Char) :
    lineFields (widths.map Int.ofNat) line = sliceFieldsNat widths line := by
  induction widths generalizing line with
  | nil => rfl
  | cons w ws ih =>
    have hws : ∀ x ∈ ws.map Int.ofNat, 0 ≤ x := by
      intro x hx
      obtain ⟨y, _, rfl⟩ := List.mem_map.mp hx
      exact Int.ofNat_nonneg y
    rw [List.map_cons, lineFields_cons (Int.ofNat w) _ line (Int.ofNat_nonneg w) hws]
    rw [show (Int.ofNat w).toNat = w from rfl, ih]
    rfl

theorem sliceFieldsNat_eq_ranges (widths : List Nat) (cs : List Char) :
    sliceFieldsNat widths cs = (List.range widths.length).map (fun i =>
      ((cs.drop ((widths.take i).sum)).take (widths.getD i 0)).filter (· != ' ')) := by
  induction widths generalizing cs with
  | nil => rfl
  | cons w ws ih =>
    rw [List.length_cons, List.range_succ_eq_map, List.map_cons, List.map_map,
      show sliceFieldsNat (w :: ws) cs =
        (cs.take w).filter (· != ' ') :: sliceFieldsNat ws (cs.drop w) from rfl,
      ih]
    refine congrArg₂ List.cons ?_ (List.map_congr_left ?_)
    · simp
    · intro i _
      simp only [Function.comp_apply, Nat.succ_eq_add_one, List.take_succ_cons,
        List.sum_cons, List.getD_cons_succ, List.drop_drop]

/-- C5: for every logical line of length exactly `sum(widths)`, the decoded
field for column `i` is the substring of characters
`[sum(widths[0:i]), sum(widths[0:i]) + widths[i])` with every occurrence of the
space character deleted — all spaces, interior ones included. -/
theorem decoded_fields_are_substrings (widths : List Nat) (line : List Char)
    (hnl : '\n' ∉ line) (hlen : line.length = widths.sum) :
    parseLine (widths.map Int.ofNat) line =
      .ok ((List.range widths.length).map (fun i =>
        ((line.drop ((widths.take i).sum)).take (widths.getD i 0)).filter
          (· != ' '))) := by
  have hfilter : line.filter (· != '\n') = line :=
    List.filter_eq_self.mpr (fun a ha => by
      simp only [bne_iff_ne, ne_eq]
      exact fun hEq => hnl (hEq ▸ ha))
  rw [parseLine_ok_of_goodWidth
      (by rw [hfilter, offsets_sum_natCast, hlen]; rfl),
    hfilter, lineFields_natCast, sliceFieldsNat_eq_ranges]

/-- Witness for C5 at widths `[3, 2]` and line `"abc 1"`. -/
theorem decoded_fields_are_substrings_witness :
    parseLine (([3, 2] : List Nat).map Int.ofNat) "abc 1".toList =
      .ok ((List.range ([3, 2] : List Nat).length).map (fun i =>
        (("abc 1".toList.drop ((([3, 2] : List Nat).take i).sum)).take
          (([3, 2] : List Nat).getD i 0)).filter (· != ' '))) :=
  decoded_fields_are_substrings [3, 2] "abc 1".toList (by decide) (by decide)

/-! ## Round trip (C4) -/

/-- Pad a field with spaces to the column width (as the repository's
fixed-width generator does with `str.ljust`). -/
def padField (w : Nat) (f : List Char) : List Char :=
  f ++ List.replicate (w - f.length) ' '

/-- Build a fixed-width line by padding each field to its column width and
concatenating. -/
def buildFixedWidthLine (widths : List Nat) (fields : List (List Char)) : List Char :=
  (List.zipWith padField widths fields).flatten

theorem padField_length {w : Nat} {f : List Char} (h : f.length ≤ w) :
    (padField w f).length = w := by
  simp [padField, Nat.add_sub_cancel' h]

theorem buildFixedWidthLine_length {widths : List Nat} {fields : List (List Char)}
    (h : List.Forall₂ (fun (f : List Char) (w : Nat) => f.length ≤ w) fields widths) :
    (buildFixedWidthLine widths fields).length = widths.sum := by
  induction h with
  | nil => rfl
  | cons hfw _ ih =>
    simp only [buildFixedWidthLine, List.zipWith_cons_cons, List.flatten_cons,
      List.length_append, List.sum_cons, padField_length hfw]
    simp only [buildFixedWidthLine] at ih
    rw [ih]

theorem buildFixedWidthLine_no_newline {fields : List (List Char)}
    (h : ∀ f ∈ fields, '\n' ∉ f) :
    ∀ {widths : List Nat}, '\n' ∉ buildFixedWidthLine widths fields := by
  induction fields with
  | nil =>
    intro widths
    cases widths <;> simp [buildFixedWidthLine]
  | cons f fs ih =>
    intro widths
    cases widths with
    | nil => simp [buildFixedWidthLine]
    | cons w ws =>
      simp only [buildFixedWidthLine, List.zipWith_cons_cons, List.flatten_cons,
        List.mem_append]
      rintro (hmem | hmem)
      · rcases List.mem_append.mp hmem with h1 | h2
        · exact h f (List.mem_cons_self f fs) h1
        · exact absurd (List.eq_of_mem_replicate h2) (by decide)
      · exact ih (fun g hg => h g (List.mem_cons_of_mem f hg)) hmem

theorem sliceFieldsNat_build {widths : List Nat} {fields : List (List Char)}
    (h : List.Forall₂ (fun (f : List Char) (w : Nat) => f.length ≤ w) fields widths)
    (hsp : ∀ f ∈ fields, ' ' ∉ f) :
    sliceFieldsNat widths (buildFixedWidthLine widths fields) = fields := by
  induction h with
  | nil => rfl
  | @cons f w fs ws hfw htail ih =>
    have hpadlen : (padField w f).length = w := padField_length hfw
    have hbuild : buildFixedWidthLine (w :: ws) (f :: fs) =
        padField w f ++ buildFixedWidthLine ws fs := by
      simp [buildFixedWidthLine]
    have hhead : (padField w f).filter (· != ' ') = f := by
      unfold padField
      rw [List.filter_append,
        List.filter_eq_self.mpr (fun a ha => by
          simp only [bne_iff_ne, ne_eq]
          exact fun hEq => hsp f (List.mem_cons_self f fs) (hEq ▸ ha)),
        List.filter_eq_nil_iff.mpr (fun a ha => by
          rw [List.eq_of_mem_replicate ha]
          decide),
        List.append_nil]
    rw [hbuild,
      show sliceFieldsNat (w :: ws) (padField w f ++ buildFixedWidthLine ws fs) =
        ((padField w f ++ buildFixedWidthLine ws fs).take w).filter (· != ' ') ::
          sliceFieldsNat ws ((padField w f ++ buildFixedWidthLine ws fs).drop w)
        from rfl,
      List.take_left' hpadlen, List.drop_left' hpadlen, hhead,
      ih (fun g hg => hsp g (List.mem_cons_of_mem f hg))]

/-- C4 counterexample: the claim quantifies over records whose fields merely
contain no spaces and fit their widths, but a field consisting of the newline
character breaks the round trip — the decoder strips the `'\n'`, so the line
fails the width check and decode errors instead of returning the record. -/
theorem round_trip_newline_field_fails :
    parseLine (([1] : List Nat).map Int.ofNat) (buildFixedWidthLine [1] [['\n']]) =
      .error "One or more fields are of incorrect length" ∧
    parseLine (([1] : List Nat).map Int.ofNat) (buildFixedWidthLine [1] [['\n']]) ≠
      .ok [['\n']] := by
  decide

/-- C4 amended: for every record whose fields contain no space and no newline
characters and whose per-field length is at most its column's width, building a
fixed-width line by padding each field with spaces to its column width and
concatenating, then decoding that line, yields back exactly the original
fields in order. -/
theorem round_trip (widths : List Nat) (fields : List (List Char))
    (hlen : List.Forall₂ (fun (f : List Char) (w : Nat) => f.length ≤ w) fields widths)
    (hsp : ∀ f ∈ fields, ' ' ∉ f) (hnl : ∀ f ∈ fields, '\n' ∉ f) :
    parseLine (widths.map Int.ofNat) (buildFixedWidthLine widths fields) =
      .ok fields := by
  have hfil : (buildFixedWidthLine widths fields).filter (· != '\n') =
      buildFixedWidthLine widths fields :=
    List.filter_eq_self.mpr (fun a ha => by
      simp only [bne_iff_ne, ne_eq]
      exact fun hEq => buildFixedWidthLine_no_newline hnl (hEq ▸ ha))
  rw [parseLine_ok_of_goodWidth
      (by rw [hfil, buildFixedWidthLine_length hlen, offsets_sum_natCast]; rfl),
    hfil, lineFields_natCast, sliceFieldsNat_build hlen hsp]

/-- Witness for the amended C4 at widths `[3, 2]` and record `["ab", "c"]`. -/
theorem round_trip_witness :
    parseLine (([3, 2] : List Nat).map Int.ofNat)
        (buildFixedWidthLine [3, 2] [['a', 'b'], ['c']]) =
      .ok [['a', 'b'], ['c']] :=
  round_trip [3, 2] [['a', 'b'], ['c']]
    (List.Forall₂.cons (by decide) (List.Forall₂.cons (by decide) List.Forall₂.nil))
    (by decide) (by decide)

/-! ## End-to-end example (C1) and terminator exactness (C7) -/

/-- C1 counterexample: the quoted input line `"abc 1 "` has six characters but
`sum(widths) = 3 + 2 = 5`, so the decoder raises the width error for it rather
than producing the record `["abc", "1"]`. -/
theorem end_to_end_original_line_fails :
    (parse_fixed_width_file propsAB "abc 1 ".toList).1 =
      .error "One or more fields are of incorrect length" ∧
    (parse_fixed_width_file propsAB "abc 1 ".toList).1 ≠
      .ok [[['a', 'b', 'c'], ['1']]] := by
  decide

/-- C1 amended: for the column specification `[("A",3),("B",2)]`, decoding the
five-character input line `"abc 1"` yields the record `["abc","1"]`, and
encoding that record with `include_header = true`, delimiter comma and
terminator `"\n"` produces exactly the output text `"A,B\nabc,1\n"`. -/
theorem end_to_end_example :
    (encodingPropertiesInit "spec.json" "fixed_width_cp1252.txt"
        "delimited_utf8.txt" docAB (some "\n")).2 = .ok propsAB ∧
    (parse_fixed_width_file propsAB "abc 1".toList).1 =
      .ok [[['a', 'b', 'c'], ['1']]] ∧
    (generate_delimited_file propsAB "\n" [[['a', 'b', 'c'], ['1']]]).1 =
      "A,B\nabc,1\n".toList := by
  decide

/-- C7: for each terminator choice in {unset, `"\n"`, `"\r"`, `"\r\n"`} the
encoder's output is exactly the concatenation of the header row (when enabled)
and the data rows, each produced by `writerow`, which appends exactly the
resolved terminator after the delimiter-joined fields; an unset or empty
terminator resolves to the platform line separator at encode time, while the
constructor stores the terminator unresolved. -/
theorem terminator_exactness (props : EncodingProperties) (osLinesep : String)
    (data : List (List (List Char)))
    (hdn : props.delimited_newline = none ∨ props.delimited_newline = some "\n" ∨
      props.delimited_newline = some "\r" ∨ props.delimited_newline = some "\r\n") :
    (generate_delimited_file props osLinesep data).1 =
      (((if props.include_header then [props.column_names.map String.toList]
          else []) ++ data).map
        (writerow (resolveNewline props.delimited_newline osLinesep).toList)).flatten ∧
    (∀ fields, ∃ body,
      writerow (resolveNewline props.delimited_newline osLinesep).toList fields =
        body ++ (resolveNewline props.delimited_newline osLinesep).toList) ∧
    resolveNewline none osLinesep = osLinesep ∧
    resolveNewline (some "") osLinesep = osLinesep ∧
    (∀ sf fwf df doc p,
      (encodingPropertiesInit sf fwf df doc none).2 = .ok p →
        p.delimited_newline = none) := by
  refine ⟨?_, fun fields => ⟨_, rfl⟩, rfl, rfl, ?_⟩
  · unfold generate_delimited_file
    cases props.include_header <;> simp
  · intro sf fwf df doc p h
    rw [encodingPropertiesInit_ok h]

/-- Witness for C7 with the unset terminator, platform separator `"\r\n"`, and
one data row. -/
theorem terminator_exactness_witness :
    (generate_delimited_file
        { propsAB with delimited_newline := none } "\r\n" [[['x']]]).1 =
      ((( if ({ propsAB with delimited_newline := none } :
              EncodingProperties).include_header then
            [({ propsAB with delimited_newline := none } :
              EncodingProperties).column_names.map String.toList]
          else []) ++ [[['x']]]).map
        (writerow (resolveNewline none "\r\n").toList)).flatten ∧
    (∀ fields, ∃ body,
      writerow (resolveNewline none "\r\n").toList fields =
        body ++ (resolveNewline none "\r\n").toList) ∧
    resolveNewline none "\r\n" = "\r\n" ∧
    resolveNewline (some "") "\r\n" = "\r\n" ∧
    (∀ sf fwf df doc p,
      (encodingPropertiesInit sf fwf df doc none).2 = .ok p →
        p.delimited_newline = none) :=
  terminator_exactness { propsAB with delimited_newline := none } "\r\n" [[['x']]]
    (Or.inl rfl)

end DelimitedWriter
